import Mathlib

/-!
# DynoWare-Free telemetry protocol layer: a shallow embedding

This file embeds the protocol layer of the DynoWare-Free repository in Lean
and proves properties of it.  The embedded pieces are:

* the CRC-16/CCITT engine and the length/CRC-framed UART codec of
  `USB-VESC.py` (`VescUart._crc16`, `VescUart._pack_payload`,
  `VescUart._receive_uart_message`, `VescUart.get_values`,
  `VescUart._process_read_packet`);
* the reflected Modbus CRC engine (`calc_crc` in the `crc maker` section of
  `USB-VESC.py`) and the Modbus response parsing shared by
  `AllInOne.CombinedLoggerApp.send_modbus_frame`,
  `BareBonesDynoDisplay.ModbusActiveApp.send_raw_frame` and
  `LoggerV2/logs/wattageLogger.ModbusActiveApp.send_raw_frame`;
* the torque validity policy of `ModbusActiveApp.update_readings`
  (`BareBonesDynoDisplay.py`, `wattageLogger.py`);
* the CAN status frame filter and decoder of
  `USB-CAN-CurrentLOG.VESCReader.read_can_data` and
  `AllInOne.CombinedLoggerApp.read_can_data`.

Byte streams are modelled as `List Nat` (each element one byte read from the
transport; a list models exactly the bytes that arrive inside the read
timeout window, so exhausting the list models the timeout).  Machine
arithmetic uses `Nat`/`Int` with explicit masking, exactly as the Python
source manipulates unbounded ints with `& 0xFFFF`-style masks.
-/

set_option maxRecDepth 16384

namespace VescUart

/-- Command ids of `USB-VESC.py`, class `VescUart`. -/
def COMM_FW_VERSION : Nat := 0
def COMM_GET_VALUES : Nat := 4
def COMM_SET_DUTY : Nat := 5
def COMM_SET_CURRENT : Nat := 6
def COMM_SET_CURRENT_BRAKE : Nat := 7
def COMM_SET_RPM : Nat := 8
def COMM_SET_CHUCK_DATA : Nat := 23
def COMM_ALIVE : Nat := 29
def COMM_FORWARD_CAN : Nat := 33

/-- One round of the inner `for _ in range(8)` loop of `VescUart._crc16`:
`crc = (crc << 1) ^ 0x1021` when bit 15 is set, else `crc = crc << 1`. -/
def crc16_round (crc : Nat) : Nat :=
  if crc &&& 0x8000 ≠ 0 then (crc <<< 1) ^^^ 0x1021 else crc <<< 1

/-- `VescUart._crc16` (USB-VESC.py lines 61-72): CRC-16/CCITT, seed `0`.
Per input byte: `crc ^= byte << 8`, eight `crc16_round`s, then
`crc &= 0xFFFF`. -/
def _crc16 (data : List Nat) : Nat :=
  data.foldl (fun crc byte => (crc16_round^[8] (crc ^^^ (byte <<< 8))) &&& 0xFFFF) 0

/-- Python `bytes(l)`: raises `ValueError` (modelled as `none`) unless every
element is in `0..255`. -/
def pyBytes (l : List Nat) : Option (List Nat) :=
  if l.all (fun b => b < 256) then some l else none

/-- `VescUart._pack_payload` (USB-VESC.py lines 74-83):
`bytes([2, len(payload)]) + payload` when `len(payload) <= 256`, else
`bytes([3, len >> 8, len & 0xFF]) + payload`; then
`struct.pack('>H', crc)` (two big-endian bytes of `_crc16 payload`,
which is always below `2 ^ 16`) and the end byte `3`. -/
def _pack_payload (payload : List Nat) : Option (List Nat) :=
  match (if payload.length ≤ 256
         then pyBytes [2, payload.length]
         else pyBytes [3, payload.length >>> 8, payload.length &&& 0xFF]) with
  | none => none
  | some message =>
      let crc := _crc16 payload
      some (message ++ payload ++ [crc >>> 8, crc &&& 0xFF] ++ [3])

/-- Outcome of `VescUart._receive_uart_message`.  The Python function returns
`(True, payload)` on a CRC-validated frame, `(False, b'')` straight after a
failed CRC comparison (line 103), and `(False, b'')` when the timeout runs
out (line 104); the three distinct return points are kept apart here. -/
inductive RecvResult
  | ok (payload : List Nat)
  | crcFail
  | timeout
deriving DecidableEq, Repr

/-- The accumulation loop of `VescUart._receive_uart_message` (USB-VESC.py
lines 85-104).  `msg` is the `message` bytearray accumulated so far and the
second argument the bytes still to arrive before the timeout.  After each
appended byte: when `len(message) >= 2` and `message[0] == 2`, the frame is
complete once `len(message) == message[1] + 5` and `message[-1] == 3`; the
payload is `message[2:2+message[1]]` and the received CRC
`(message[-3] << 8) | message[-2]`. -/
def recvLoop (msg : List Nat) : List Nat → RecvResult
  | [] => .timeout
  | b :: rest =>
    let m := msg ++ [b]
    if 2 ≤ m.length ∧ m.headI = 2 then
      if m.length = m.tail.headI + 5 ∧ m.getLast? = some 3 then
        if _crc16 ((m.drop 2).take m.tail.headI) =
            ((m.getD (m.length - 3) 0) <<< 8) ||| (m.getD (m.length - 2) 0) then
          .ok ((m.drop 2).take m.tail.headI)
        else .crcFail
      else recvLoop m rest
    else recvLoop m rest

/-- `VescUart._receive_uart_message`: run the accumulation loop on the bytes
that arrive within the timeout, starting from an empty `message`. -/
def _receive_uart_message (stream : List Nat) : RecvResult :=
  recvLoop [] stream

end VescUart

/-- `struct.unpack('>h', ..)`: two bytes, big-endian, two's complement. -/
def toInt16 (v : Nat) : Int :=
  if v < 0x8000 then (v : Int) else (v : Int) - 0x10000

/-- `struct.unpack('>H', l[i:i+2])`: big-endian 16-bit read at offset `i`. -/
def be16 (l : List Nat) (i : Nat) : Nat :=
  256 * l.getD i 0 + l.getD (i + 1) 0

/-- `struct.unpack('>I', l[i:i+4])`: big-endian 32-bit read at offset `i`. -/
def be32 (l : List Nat) (i : Nat) : Nat :=
  2 ^ 24 * l.getD i 0 + 2 ^ 16 * l.getD (i + 1) 0 + 2 ^ 8 * l.getD (i + 2) 0
    + l.getD (i + 3) 0

/-- `struct.unpack('>f', ..)`: IEEE-754 binary32 big-endian decode, as the
exact rational value of the stored float.  The `e = 255` encodings
(infinities, NaN) have no rational value and are mapped to `0`; no claim in
this development evaluates that branch. -/
def unpackF32 (b0 b1 b2 b3 : Nat) : ℚ :=
  let s : ℚ := if b0 >>> 7 = 1 then -1 else 1
  let e : Nat := ((b0 &&& 0x7F) <<< 1) ||| (b1 >>> 7)
  let m : Nat := ((b1 &&& 0x7F) <<< 16) ||| (b2 <<< 8) ||| b3
  if e = 0 then s * (m : ℚ) / 2 ^ 23 * ((2 : ℚ) ^ 126)⁻¹
  else if e = 255 then 0
  else s * (1 + (m : ℚ) / 2 ^ 23) * (2 : ℚ) ^ ((e : ℤ) - 127)

namespace VescUart

/-- The `VescData` dataclass of USB-VESC.py (lines 10-27).  Real-valued
fields are modelled as exact rationals. -/
structure VescData where
  temp_mosfet : ℚ := 0
  temp_motor : ℚ := 0
  avg_motor_current : ℚ := 0
  avg_input_current : ℚ := 0
  duty_cycle_now : ℚ := 0
  rpm : ℚ := 0
  input_voltage : ℚ := 0
  amp_hours : ℚ := 0
  amp_hours_charged : ℚ := 0
  watt_hours : ℚ := 0
  watt_hours_charged : ℚ := 0
  tachometer : Int := 0
  tachometer_abs : Int := 0
  error : Int := 0
  pid_pos : ℚ := 0
  controller_id : Int := 0
deriving DecidableEq, Repr

/-- `VescData()` with the dataclass defaults. -/
def VescData.init : VescData := {}

/-- `VescUart._process_read_packet` (USB-VESC.py lines 117-132):
`packet_id = message[0]`, `payload = message[1:]`; when the id is
`COMM_GET_VALUES` the scaled fields are unpacked at the running offset
(`>h` at 0 and 2, `>f` at 4 and 8, skip 8, `>h` at 20, `>f` at 22, `>h`
at 26); for any other id the cached data is left untouched. -/
def _process_read_packet (message : List Nat) (d : VescData) : VescData :=
  let payload := message.tail
  if message.headI = COMM_GET_VALUES then
    { d with
      temp_mosfet := (toInt16 (be16 payload 0) : ℚ) / 10
      temp_motor := (toInt16 (be16 payload 2) : ℚ) / 10
      avg_motor_current :=
        unpackF32 (payload.getD 4 0) (payload.getD 5 0)
          (payload.getD 6 0) (payload.getD 7 0) / 100
      avg_input_current :=
        unpackF32 (payload.getD 8 0) (payload.getD 9 0)
          (payload.getD 10 0) (payload.getD 11 0) / 100
      duty_cycle_now := (toInt16 (be16 payload 20) : ℚ) / 1000
      rpm :=
        unpackF32 (payload.getD 22 0) (payload.getD 23 0)
          (payload.getD 24 0) (payload.getD 25 0)
      input_voltage := (toInt16 (be16 payload 26) : ℚ) / 10 }
  else d

/-- The request payload written by `VescUart.get_values` (USB-VESC.py
line 108): `bytes([COMM_FORWARD_CAN, can_id, COMM_GET_VALUES]) if can_id
else bytes([COMM_GET_VALUES])`. -/
def get_values_request (can_id : Nat) : List Nat :=
  if can_id ≠ 0 then [COMM_FORWARD_CAN, can_id, COMM_GET_VALUES]
  else [COMM_GET_VALUES]

/-- `VescUart.get_values` (USB-VESC.py lines 106-115), reception side:
`success, message = _receive_uart_message()`; when `success and
len(message) > 55` the packet is processed into the cached data and `True`
is returned, otherwise `False` and the cache is untouched. -/
def get_values (stream : List Nat) (d : VescData) : Bool × VescData :=
  match _receive_uart_message stream with
  | .ok message =>
      if 55 < message.length then (true, _process_read_packet message d)
      else (false, d)
  | .crcFail => (false, d)
  | .timeout => (false, d)

end VescUart

/-- `calc_crc` inner round (`crc maker.py` section of USB-VESC.py, lines
365-374): `crc = (crc >> 1) ^ 0xA001` when the LSB is set, else
`crc >>= 1`. -/
def calc_crc_round (crc : Nat) : Nat :=
  if crc &&& 0x0001 ≠ 0 then (crc >>> 1) ^^^ 0xA001 else crc >>> 1

/-- `calc_crc(message_bytes)`: the Modbus CRC-16, seed `0xFFFF`; per byte
`crc ^= byte` then eight `calc_crc_round`s. -/
def calc_crc (message_bytes : List Nat) : Nat :=
  message_bytes.foldl (fun crc byte => calc_crc_round^[8] (crc ^^^ byte)) 0xFFFF

/-- The watts query frame of `wattageLogger.ModbusActiveApp.update_readings`
(line 207): `"01 03 00 04 00 02 85 CA"`. -/
def watts_frame : List Nat := [0x01, 0x03, 0x00, 0x04, 0x00, 0x02, 0x85, 0xCA]

/-- The error taxonomy of Modbus response parsing: `TooShort` is the
`"Response too short."` branch, `BadByteCount` the `"Invalid byte count"`
branch of `send_modbus_frame` / `send_raw_frame`. -/
inductive FrameError
  | TooShort
  | BadByteCount
deriving DecidableEq, Repr

instance : DecidableEq (Except FrameError Nat) := fun a b =>
  match a, b with
  | .ok x, .ok y => decidable_of_iff (x = y) (by simp)
  | .error x, .error y => decidable_of_iff (x = y) (by simp)
  | .ok _, .error _ => .isFalse (by simp)
  | .error _, .ok _ => .isFalse (by simp)

/-- Response parsing of `CombinedLoggerApp.send_modbus_frame` (AllInOne.py
lines 406-416), identical in `ModbusLoggerApp.send_raw_frame`: a buffer is
accepted when `len(response_buffer) >= 9` and `response_buffer[2] == 4`;
then `data_bytes = response_buffer[3:3+4]` and the value is
`struct.unpack('>H', data_bytes[2:4])`.  The two rejection branches print
`"Response too short."` and `"Invalid byte count"` respectively and make
the function return `None`. -/
def send_modbus_frame_parse (buffer : List Nat) : Except FrameError Nat :=
  if 9 ≤ buffer.length then
    if buffer.getD 2 0 = 4 then
      let data_bytes := (buffer.drop 3).take 4
      .ok (256 * data_bytes.getD 2 0 + data_bytes.getD 3 0)
    else .error .BadByteCount
  else .error .TooShort

/-- Response parsing of `ModbusActiveApp.send_raw_frame`
(BareBonesDynoDisplay.py lines 153-208, wattageLogger.py lines 226-270):
same acceptance condition, with the 16-bit value read as `'>h'` (signed)
or `'>H'` per the `signed` flag; every rejection returns `None`. -/
def send_raw_frame_parse (signed : Bool) (buffer : List Nat) : Option Int :=
  if 9 ≤ buffer.length then
    if buffer.getD 2 0 = 4 then
      let data_bytes := (buffer.drop 3).take 4
      let v := 256 * data_bytes.getD 2 0 + data_bytes.getD 3 0
      some (if signed then toInt16 v else (v : Int))
    else none
  else none

/-- The torque validity policy of `ModbusActiveApp.update_readings`
(BareBonesDynoDisplay.py lines 128-143, wattageLogger.py lines 178-192):
`torque_nm = torque_val / 100.0`; when `torque_nm > 150.0` the reading is
ignored (`none`); otherwise, when `torque_nm < 0.0` the published value is
`torque_nm + 0.05`, else `torque_nm` itself. -/
def torque_policy (torque_val : Int) : Option ℚ :=
  let torque_nm : ℚ := (torque_val : ℚ) / 100
  if torque_nm > 150 then none
  else some (if torque_nm < 0 then torque_nm + 0.05 else torque_nm)

/-- The torque half of `update_readings`: parse the response buffer of the
torque query with `signed=True`, then apply the validity policy. -/
def update_readings_torque (buffer : List Nat) : Option ℚ :=
  match send_raw_frame_parse true buffer with
  | some torque_val => torque_policy torque_val
  | none => none

/-- A frame of the gs_usb adapter (`GsUsbFrame`), as read by
`read_can_data`. -/
structure CanFrame where
  can_id : Nat
  is_extended : Bool
  is_remote : Bool
  echo_id : Nat
  data : List Nat

/-- `GS_USB_NONE_ECHO_ID` (USB-CAN-CurrentLOG.py line 27). -/
def GS_USB_NONE_ECHO_ID : Nat := 0xFFFFFFFF

/-- `CAN_ERR_FLAG` of the external `gs_usb.constants` module (the standard
SocketCAN error-frame flag). -/
def CAN_ERR_FLAG : Nat := 0x20000000

/-- `CAN_PACKET_STATUS` (USB-CAN-CurrentLOG.py line 39). -/
def CAN_PACKET_STATUS : Nat := 9

/-- `CAN_PACKET_STATUS_5` (USB-CAN-CurrentLOG.py line 40). -/
def CAN_PACKET_STATUS_5 : Nat := 27

/-- `VESC_ID` (USB-CAN-CurrentLOG.py line 36). -/
def VESC_ID : Nat := 1

/-- `get_can_id(command_id, vesc_id) = (command_id << 8) | vesc_id`
(USB-CAN-CurrentLOG.py lines 43-47, AllInOne.py lines 20-22). -/
def get_can_id (command_id vesc_id : Nat) : Nat :=
  (command_id <<< 8) ||| vesc_id

/-- `CAN_ID_STATUS` (USB-CAN-CurrentLOG.py line 49). -/
def CAN_ID_STATUS : Nat := get_can_id CAN_PACKET_STATUS VESC_ID

/-- `CAN_ID_STATUS_5` (USB-CAN-CurrentLOG.py line 50). -/
def CAN_ID_STATUS_5 : Nat := get_can_id CAN_PACKET_STATUS_5 VESC_ID

/-- A decoded CAN sample: the values `read_can_data` publishes to the GUI
labels and the log for a STATUS or STATUS_5 frame. -/
inductive CanSample
  | status (rpm : Nat) (current : ℚ)
  | status5 (voltage : ℚ)
deriving DecidableEq, Repr

/-- One iteration of `VESCReader.read_can_data` (USB-CAN-CurrentLOG.py lines
301-386; the same logic is `CombinedLoggerApp.read_can_data`, AllInOne.py
lines 601-674) on a frame the adapter returned: the frame is considered
only if it `is_extended`, its `echo_id` is the no-echo sentinel and its id
does not carry `CAN_ERR_FLAG`.  A STATUS frame needs at least 8 data bytes
and yields `erpm = unpack('>I', data[0:4])` (scale 1) and
`current = unpack('>h', data[4:6]) / 10.0`; a STATUS_5 frame needs at
least 6 data bytes and yields `voltage = unpack('>H', data[4:6]) / 10.0`;
anything else produces no decoded value. -/
def read_can_frame_step (frame : CanFrame) : Option CanSample :=
  if frame.is_extended ∧ frame.echo_id = GS_USB_NONE_ECHO_ID
      ∧ frame.can_id &&& CAN_ERR_FLAG = 0 then
    if frame.can_id = CAN_ID_STATUS then
      if 8 ≤ frame.data.length then
        some (.status (be32 frame.data 0) ((toInt16 (be16 frame.data 4) : ℚ) / 10))
      else none
    else if frame.can_id = CAN_ID_STATUS_5 then
      if 6 ≤ frame.data.length then
        some (.status5 ((be16 frame.data 4 : ℚ) / 10))
      else none
    else none
  else none

/-! ## Helper lemmas about the UART receive loop -/

namespace VescUart

/-- Splitting a 16-bit CRC into `struct.pack('>H', ..)` bytes and
recombining them with `(hi << 8) | lo` is the identity. -/
lemma crc_hi_lo_or (x : Nat) : ((x >>> 8) <<< 8) ||| (x &&& 0xFF) = x := by
  apply Nat.eq_of_testBit_eq
  intro i
  simp only [Nat.testBit_or, Nat.testBit_and, Nat.testBit_shiftLeft, Nat.testBit_shiftRight]
  rcases Nat.lt_or_ge i 8 with h | h
  · have hge : ¬ 8 ≤ i := Nat.not_le.mpr h
    have h255 : Nat.testBit 255 i = true := by interval_cases i <;> decide
    simp [hge, h255]
  · have h255 : Nat.testBit 255 i = false :=
      Nat.testBit_lt_two_pow (lt_of_lt_of_le (by norm_num)
        (Nat.pow_le_pow_right (by norm_num) h))
    have h2 : 8 + (i - 8) = i := by omega
    simp [h, h255, h2]

/-- While the accumulated message is shorter than `message[1] + 5` bytes,
one more byte just recurses with a longer accumulator. -/
lemma recvLoop_skip (n : Nat) (pre : List Nat) (b : Nat) (rest : List Nat)
    (hlen : pre.length + 3 ≠ n + 5) :
    recvLoop ([2, n] ++ pre) (b :: rest) = recvLoop ([2, n] ++ (pre ++ [b])) rest := by
  have hm : ([2, n] ++ pre) ++ [b] = [2, n] ++ (pre ++ [b]) := by simp
  simp only [recvLoop]
  split_ifs with h1 h2 h3
  · exact absurd h2.1 (by simpa using hlen)
  · exact absurd h2.1 (by simpa using hlen)
  · rw [hm]
  · rw [hm]

/-- The byte that completes the declared frame length makes the loop check
the end marker and the CRC and return. -/
lemma recvLoop_fire (payload : List Nat) (hi lo b : Nat) (pre rest : List Nat)
    (hpre : pre ++ [b] = payload ++ [hi, lo, 3]) :
    recvLoop ([2, payload.length] ++ pre) (b :: rest) =
      if _crc16 payload = (hi <<< 8) ||| lo then .ok payload else .crcFail := by
  have hpre' : pre ++ [b] = (payload ++ [hi, lo]) ++ [3] := by simpa using hpre
  have hlenpre : pre.length = (payload ++ [hi, lo]).length := by
    have := congrArg List.length hpre'
    simp only [List.length_append, List.length_cons, List.length_nil] at this ⊢
    omega
  obtain ⟨hp, hb⟩ := List.append_inj hpre' hlenpre
  have hb3 : b = 3 := by simpa using hb
  subst hp hb3
  set n := payload.length with hn
  have hM : ([2, n] ++ (payload ++ [hi, lo])) ++ [3] =
      [2, n] ++ (payload ++ [hi, lo, 3]) := by simp
  have hlast : ([2, n] ++ (payload ++ [hi, lo, 3])).getLast? = some 3 := by
    rw [← hM]; exact List.getLast?_concat _
  have hlen : ([2, n] ++ (payload ++ [hi, lo, 3])).length = n + 5 := by simp
  have htailhead : ([2, n] ++ (payload ++ [hi, lo, 3])).tail.headI = n := rfl
  have hdrop : ([2, n] ++ (payload ++ [hi, lo, 3])).drop 2 = payload ++ [hi, lo, 3] := rfl
  have htake : (payload ++ [hi, lo, 3]).take n = payload := by
    simp [List.take_append_eq_append_take, hn]
  have hgethi : ([2, n] ++ (payload ++ [hi, lo, 3])).getD (n + 5 - 3) 0 = hi := by
    show (2 :: n :: (payload ++ [hi, lo, 3])).getD (n + 2) 0 = hi
    rw [List.getD_eq_getElem?_getD]
    have : (2 :: n :: (payload ++ [hi, lo, 3]))[n + 2]? = (payload ++ [hi, lo, 3])[n]? := by
      simp
    rw [this, List.getElem?_append_right (Nat.le_refl _)]
    simp
  have hgetlo : ([2, n] ++ (payload ++ [hi, lo, 3])).getD (n + 5 - 2) 0 = lo := by
    show (2 :: n :: (payload ++ [hi, lo, 3])).getD (n + 3) 0 = lo
    rw [List.getD_eq_getElem?_getD]
    have : (2 :: n :: (payload ++ [hi, lo, 3]))[n + 3]? = (payload ++ [hi, lo, 3])[n + 1]? := by
      simp [Nat.add_comm]
    rw [this, List.getElem?_append_right (by omega)]
    simp
  simp only [recvLoop, hM]
  rw [if_pos ⟨by simp [hlen], rfl⟩,
    if_pos ⟨by rw [hlen, htailhead], hlast⟩, htailhead, hdrop, htake, hlen,
    hgethi, hgetlo]

/-- Running the loop from the two header bytes over the remainder of a
frame: it returns at the frame's last byte, tested against the CRC. -/
lemma recvLoop_run (payload : List Nat) (hi lo : Nat) :
    ∀ (post pre rest : List Nat),
      pre ++ post = payload ++ [hi, lo, 3] → post ≠ [] →
      recvLoop ([2, payload.length] ++ pre) (post ++ rest) =
        if _crc16 payload = (hi <<< 8) ||| lo then .ok payload else .crcFail := by
  intro post
  induction post with
  | nil => intro pre rest h hne; exact absurd rfl hne
  | cons b post ih =>
    intro pre rest h _
    cases post with
    | nil => exact recvLoop_fire payload hi lo b pre rest h
    | cons b2 post2 =>
      have hlen : pre.length + 3 ≠ payload.length + 5 := by
        have := congrArg List.length h
        simp only [List.length_append, List.length_cons, List.length_nil] at this
        omega
      show recvLoop ([2, payload.length] ++ pre) (b :: ((b2 :: post2) ++ rest)) = _
      rw [recvLoop_skip payload.length pre b _ hlen]
      exact ih (pre ++ [b]) rest (by simpa using h) (by simp)

/-- A complete short frame at the head of the stream is accepted or
rejected at its final byte, by the CRC comparison alone; trailing bytes
are never read. -/
lemma receive_frame (payload : List Nat) (hi lo : Nat) (rest : List Nat) :
    _receive_uart_message ([2, payload.length] ++ payload ++ [hi, lo, 3] ++ rest) =
      if _crc16 payload = (hi <<< 8) ||| lo then .ok payload else .crcFail := by
  show recvLoop [] (2 :: payload.length :: (payload ++ [hi, lo, 3] ++ rest)) = _
  have h1 : recvLoop [] (2 :: payload.length :: (payload ++ [hi, lo, 3] ++ rest)) =
      recvLoop [2] (payload.length :: (payload ++ [hi, lo, 3] ++ rest)) := by
    simp only [recvLoop]
    rw [if_neg]
    · rfl
    · intro hc
      simp at hc
  have h2 : recvLoop [2] (payload.length :: (payload ++ [hi, lo, 3] ++ rest)) =
      recvLoop [2, payload.length] ((payload ++ [hi, lo, 3]) ++ rest) := by
    simp only [recvLoop]
    rw [if_pos ⟨by simp, rfl⟩, if_neg]
    · simp
    · intro hc
      have := hc.1
      simp at this
  rw [h1, h2]
  exact recvLoop_run payload hi lo (payload ++ [hi, lo, 3]) [] rest (by simp)
    (by simp)

/-- The shape every payload accepted by `_receive_uart_message` was read
from: a prefix of the byte stream that is a marker-2 frame of matching
declared length, ends in the marker `3`, and whose embedded CRC equals the
CRC-16/CCITT recomputed over the payload slice. -/
def UartFrameAccepted (stream payload : List Nat) : Prop :=
  ∃ m r, stream = m ++ r ∧ 2 ≤ m.length ∧ m.headI = 2 ∧
    m.length = m.tail.headI + 5 ∧ m.getLast? = some 3 ∧
    payload = (m.drop 2).take m.tail.headI ∧
    _crc16 payload = ((m.getD (m.length - 3) 0) <<< 8) ||| (m.getD (m.length - 2) 0)

/-- Soundness of the receive loop: a payload is only ever returned from a
CRC-validated, well-formed frame. -/
lemma recvLoop_ok_accepted :
    ∀ (rest msg p : List Nat), recvLoop msg rest = .ok p →
      ∃ m r, msg ++ rest = m ++ r ∧ 2 ≤ m.length ∧ m.headI = 2 ∧
        m.length = m.tail.headI + 5 ∧ m.getLast? = some 3 ∧
        p = (m.drop 2).take m.tail.headI ∧
        _crc16 p = ((m.getD (m.length - 3) 0) <<< 8) ||| (m.getD (m.length - 2) 0) := by
  intro rest
  induction rest with
  | nil => intro msg p h; simp [recvLoop] at h
  | cons b rest ih =>
    intro msg p h
    simp only [recvLoop] at h
    split_ifs at h with h1 h2 h3
    · refine ⟨msg ++ [b], rest, by simp, h1.1, h1.2, h2.1, h2.2, ?_, ?_⟩
      · exact (RecvResult.ok.injEq _ _).mp h.symm
      · have hp : p = ((msg ++ [b]).drop 2).take (msg ++ [b]).tail.headI :=
          (RecvResult.ok.injEq _ _).mp h.symm
        rw [hp]; exact h3
    · obtain ⟨m, r, hmr, hrest⟩ := ih (msg ++ [b]) p h
      exact ⟨m, r, by simpa using hmr, hrest⟩
    · obtain ⟨m, r, hmr, hrest⟩ := ih (msg ++ [b]) p h
      exact ⟨m, r, by simpa using hmr, hrest⟩

/-- `_receive_uart_message` soundness, stated on the whole stream. -/
lemma receive_ok_accepted (stream p : List Nat)
    (h : _receive_uart_message stream = .ok p) : UartFrameAccepted stream p := by
  simpa [UartFrameAccepted] using recvLoop_ok_accepted stream [] p h

/-- A stream whose first byte is not the short-message marker `2` is never
parsed: the loop accumulates until the timeout. -/
lemma recvLoop_headI_ne_two :
    ∀ (rest msg : List Nat), msg ≠ [] → msg.headI ≠ 2 → recvLoop msg rest = .timeout := by
  intro rest
  induction rest with
  | nil => intro msg _ _; rfl
  | cons b rest ih =>
    intro msg hne hhead
    cases msg with
    | nil => exact absurd rfl hne
    | cons a t =>
      simp only [recvLoop]
      rw [if_neg]
      · exact ih ((a :: t) ++ [b]) (by simp) (by simpa using hhead)
      · intro hc
        exact hhead (by simpa using hc.2)

/-- Packing a payload of at most 255 bytes takes the marker-2 branch and
produces the 1-byte-length frame. -/
lemma pack_short (payload : List Nat) (h : payload.length ≤ 255) :
    _pack_payload payload =
      some ([2, payload.length] ++ payload ++
        [_crc16 payload >>> 8, _crc16 payload &&& 0xFF, 3]) := by
  have h256 : payload.length ≤ 256 := by omega
  simp only [_pack_payload, pyBytes]
  rw [if_pos h256, if_pos]
  · simp
  · simp
    omega

/-- Packing a payload of exactly 256 bytes takes the marker-2 branch and
fails: `bytes([2, 256])` raises `ValueError` because 256 is not a byte. -/
lemma pack_at_256 (payload : List Nat) (h : payload.length = 256) :
    _pack_payload payload = none := by
  simp only [_pack_payload, pyBytes]
  rw [if_pos (by omega), if_neg]
  simp [h]

/-- Packing a payload of 257 to 65535 bytes takes the marker-3 branch and
produces the 2-byte-big-endian-length frame. -/
lemma pack_long (payload : List Nat) (h1 : 257 ≤ payload.length)
    (h2 : payload.length ≤ 65535) :
    _pack_payload payload =
      some ([3, payload.length >>> 8, payload.length &&& 0xFF] ++ payload ++
        [_crc16 payload >>> 8, _crc16 payload &&& 0xFF, 3]) := by
  have hs : payload.length >>> 8 < 256 := by
    rw [Nat.shiftRight_eq_div_pow]
    omega
  have hm : payload.length &&& 0xFF < 256 :=
    Nat.lt_succ_of_le Nat.and_le_right
  simp only [_pack_payload, pyBytes]
  rw [if_neg (by omega), if_pos]
  · simp
  · simp
    exact ⟨hs, hm⟩

/-- Round-trip: a packed payload of at most 255 bytes is accepted by
`_receive_uart_message` and returns exactly the original payload. -/
lemma pack_receive_roundtrip (payload : List Nat) (h : payload.length ≤ 255) :
    ∃ frame, _pack_payload payload = some frame ∧
      _receive_uart_message frame = .ok payload := by
  refine ⟨_, pack_short payload h, ?_⟩
  have hfr := receive_frame payload (_crc16 payload >>> 8) (_crc16 payload &&& 0xFF) []
  rw [List.append_nil] at hfr
  rw [if_pos (crc_hi_lo_or (_crc16 payload)).symm] at hfr
  exact hfr

end VescUart

/-- Reading the value bytes `data_bytes[2:4]` of `response_buffer[3:3+4]`
is reading `response_buffer[5]` and `response_buffer[6]`. -/
lemma modbus_data_bytes (buffer : List Nat) :
    ((buffer.drop 3).take 4).getD 2 0 = buffer.getD 5 0 ∧
    ((buffer.drop 3).take 4).getD 3 0 = buffer.getD 6 0 := by
  constructor <;>
  · rw [List.getD_eq_getElem?_getD, List.getD_eq_getElem?_getD, List.getElem?_take]
    simp [List.getElem?_drop]

/-- The accepted-path behaviour of the Modbus parse on any buffer of at
least 9 bytes with byte count 4. -/
lemma send_modbus_frame_parse_ok (buffer : List Nat) (h9 : 9 ≤ buffer.length)
    (hbc : buffer.getD 2 0 = 4) :
    send_modbus_frame_parse buffer = .ok (256 * buffer.getD 5 0 + buffer.getD 6 0) := by
  simp only [send_modbus_frame_parse]
  rw [if_pos h9, if_pos hbc, (modbus_data_bytes buffer).1, (modbus_data_bytes buffer).2]

/-- Appending two trailing (CRC) bytes to a 7-byte-or-longer prefix never
changes what the Modbus parse reads: the length check passes and the byte
count and both value bytes are read from the prefix. -/
lemma send_modbus_frame_parse_append (pre : List Nat) (a b : Nat)
    (h7 : 7 ≤ pre.length) (hbc : pre.getD 2 0 = 4) :
    send_modbus_frame_parse (pre ++ [a, b]) =
      .ok (256 * pre.getD 5 0 + pre.getD 6 0) := by
  have hg : ∀ i, i < 7 → (pre ++ [a, b]).getD i 0 = pre.getD i 0 := by
    intro i hi
    rw [List.getD_eq_getElem?_getD, List.getD_eq_getElem?_getD,
      List.getElem?_append_left (by omega)]
  rw [send_modbus_frame_parse_ok (pre ++ [a, b]) (by simp; omega)
    (by rw [hg 2 (by omega)]; exact hbc), hg 5 (by omega), hg 6 (by omega)]

/-! ## Claims -/

/-- **C1, counterexample.**  The claim says no telemetry sample is ever
emitted from a frame whose checksum failed, including on the Modbus path.
It is false there: this 9-byte Modbus response carries the little-endian
CRC word `0` in its last two bytes, while the Modbus CRC of its first
seven bytes is `0x0FE0`; the checksum is therefore wrong, yet the parse
succeeds and the driver publishes the sample `10000`. -/
theorem C1_counterexample :
    send_modbus_frame_parse [1, 3, 4, 0, 0, 0x27, 0x10, 0, 0] = .ok 10000 ∧
    calc_crc ([1, 3, 4, 0, 0, 0x27, 0x10, 0, 0].take 7) ≠
      [1, 3, 4, 0, 0, 0x27, 0x10, 0, 0].getD 7 0 +
        256 * [1, 3, 4, 0, 0, 0x27, 0x10, 0, 0].getD 8 0 := by
  constructor
  · decide
  · decide

/-- **C1, amended.**  Every sample returned on the UART path comes from a
frame that passed CRC validation (`_receive_uart_message` succeeds only on
a well-formed, CRC-matching frame).  The Modbus path, by contrast, gates
its decode only on buffer length (at least 9) and byte count (exactly 4):
it returns the decoded register value for arbitrary trailing CRC bytes,
so CRC failure does not prevent a Modbus sample from being emitted. -/
theorem C1_amended :
    (∀ stream p, VescUart._receive_uart_message stream = .ok p →
      VescUart.UartFrameAccepted stream p) ∧
    (∀ (pre : List Nat) (a b : Nat), 7 ≤ pre.length → pre.getD 2 0 = 4 →
      send_modbus_frame_parse (pre ++ [a, b]) =
        .ok (256 * pre.getD 5 0 + pre.getD 6 0)) :=
  ⟨VescUart.receive_ok_accepted, send_modbus_frame_parse_append⟩

/-- **C1, witness.** -/
theorem C1_witness :
    VescUart.UartFrameAccepted [2, 0, 0, 0, 3] [] ∧
    send_modbus_frame_parse [1, 3, 4, 0, 0, 9, 9, 0xCC, 0xDD] = .ok (256 * 9 + 9) := by
  constructor
  · exact C1_amended.1 [2, 0, 0, 0, 3] [] (by decide)
  · exact C1_amended.2 [1, 3, 4, 0, 0, 9, 9] 0xCC 0xDD (by decide) (by decide)

/-- **C2, counterexample.**  The pack/receive round-trip is not the
identity on every payload: for a 257-byte payload, `_pack_payload` takes
the marker-3 long form, which `_receive_uart_message` never parses (its
only parsing branch requires `message[0] == 2`), so the receive side times
out instead of returning the payload. -/
theorem C2_counterexample :
    (VescUart._pack_payload (List.replicate 257 0)).map VescUart._receive_uart_message ≠
      some (VescUart.RecvResult.ok (List.replicate 257 0)) := by
  have hpack : ∃ t, VescUart._pack_payload (List.replicate 257 0) = some (3 :: t) :=
    ⟨_, by rw [VescUart.pack_long (List.replicate 257 0) (by simp) (by simp)]; exact rfl⟩
  obtain ⟨t, ht⟩ := hpack
  rw [ht]
  have hto : VescUart._receive_uart_message (3 :: t) = .timeout := by
    show VescUart.recvLoop [] (3 :: t) = .timeout
    simp only [VescUart.recvLoop]
    rw [if_neg (by intro hc; simp at hc)]
    exact VescUart.recvLoop_headI_ne_two t ([] ++ [3]) (by simp) (by simp)
  simp [hto]

/-- **C2, amended.**  For every payload of at most 255 bytes — the only
lengths the marker-2 short form can carry — packing and then receiving
round-trips to exactly the original payload bytes. -/
theorem C2_amended (payload : List Nat) (hlen : payload.length ≤ 255)
    (_hbytes : ∀ b ∈ payload, b < 256) :
    ∃ frame, VescUart._pack_payload payload = some frame ∧
      VescUart._receive_uart_message frame = .ok payload :=
  VescUart.pack_receive_roundtrip payload hlen

/-- **C2, witness.** -/
theorem C2_witness :
    ∃ frame, VescUart._pack_payload [4] = some frame ∧
      VescUart._receive_uart_message frame = .ok [4] :=
  C2_amended [4] (by decide) (by decide)

/-- **C3, confirmed.**  The Modbus response parse fails with `TooShort`
below 9 bytes, fails with `BadByteCount` when the third byte is not 4, and
otherwise decodes the last two of the four data bytes big-endian; the
9-byte buffer with byte count 4 and data ending `0x27 0x10` yields
`10000`. -/
theorem C3_parse_response_contract :
    (∀ buffer : List Nat,
      (buffer.length < 9 → send_modbus_frame_parse buffer = .error .TooShort) ∧
      (9 ≤ buffer.length → buffer.getD 2 0 ≠ 4 →
        send_modbus_frame_parse buffer = .error .BadByteCount) ∧
      (9 ≤ buffer.length → buffer.getD 2 0 = 4 →
        send_modbus_frame_parse buffer =
          .ok (256 * buffer.getD 5 0 + buffer.getD 6 0))) ∧
    send_modbus_frame_parse [1, 3, 4, 0, 0, 0x27, 0x10, 0xFA, 0x33] = .ok 10000 := by
  refine ⟨fun buffer => ⟨?_, ?_, send_modbus_frame_parse_ok buffer⟩, by decide⟩
  · intro h
    simp only [send_modbus_frame_parse]
    rw [if_neg (by omega)]
  · intro h9 hbc
    simp only [send_modbus_frame_parse]
    rw [if_pos h9, if_neg hbc]

/-- **C3, witness.** -/
theorem C3_witness :
    send_modbus_frame_parse [1, 3, 4, 0, 0, 0, 0, 0] = .error .TooShort ∧
    send_modbus_frame_parse [1, 3, 2, 0, 0, 0, 0, 0, 0] = .error .BadByteCount ∧
    send_modbus_frame_parse [1, 3, 4, 0, 0, 4, 0xD2, 0, 0] = .ok (256 * 4 + 0xD2) := by
  refine ⟨(C3_parse_response_contract.1 _).1 (by decide),
    (C3_parse_response_contract.1 _).2.1 (by decide) (by decide),
    (C3_parse_response_contract.1 _).2.2 (by decide) (by decide)⟩

/-- **C4, confirmed.**  On any buffer of length at least 9 with byte count
4, the Modbus parse returns the decoded register value whatever the two
trailing CRC bytes hold, and two buffers differing only in those two bytes
parse identically: the decode is never gated on CRC validity. -/
theorem C4_crc_does_not_gate_modbus_decode (pre : List Nat) (a b a2 b2 : Nat)
    (h7 : 7 ≤ pre.length) (hbc : pre.getD 2 0 = 4) :
    send_modbus_frame_parse (pre ++ [a, b]) =
      .ok (256 * pre.getD 5 0 + pre.getD 6 0) ∧
    send_modbus_frame_parse (pre ++ [a, b]) =
      send_modbus_frame_parse (pre ++ [a2, b2]) := by
  refine ⟨send_modbus_frame_parse_append pre a b h7 hbc, ?_⟩
  rw [send_modbus_frame_parse_append pre a b h7 hbc,
    send_modbus_frame_parse_append pre a2 b2 h7 hbc]

/-- **C4, witness.** -/
theorem C4_witness :
    send_modbus_frame_parse [1, 3, 4, 0, 0, 1, 0xF4, 9, 9] = .ok (256 * 1 + 0xF4) ∧
    send_modbus_frame_parse [1, 3, 4, 0, 0, 1, 0xF4, 9, 9] =
      send_modbus_frame_parse [1, 3, 4, 0, 0, 1, 0xF4, 7, 7] :=
  C4_crc_does_not_gate_modbus_decode [1, 3, 4, 0, 0, 1, 0xF4] 9 9 7 7
    (by decide) (by decide)

/-- **C5, confirmed.**  The Modbus CRC engine on the torque/watts query
bytes `01 03 00 04 00 02` yields `0xCA85`, whose little-endian byte pair
is `85 CA` — exactly the CRC bytes of the watts query frame used by
`wattageLogger.update_readings`. -/
theorem C5_crc16_modbus_vector :
    calc_crc [0x01, 0x03, 0x00, 0x04, 0x00, 0x02] = 0xCA85 ∧
    calc_crc [0x01, 0x03, 0x00, 0x04, 0x00, 0x02] &&& 0xFF = 0x85 ∧
    (calc_crc [0x01, 0x03, 0x00, 0x04, 0x00, 0x02] >>> 8) &&& 0xFF = 0xCA ∧
    watts_frame = [0x01, 0x03, 0x00, 0x04, 0x00, 0x02] ++
      [calc_crc [0x01, 0x03, 0x00, 0x04, 0x00, 0x02] &&& 0xFF,
       (calc_crc [0x01, 0x03, 0x00, 0x04, 0x00, 0x02] >>> 8) &&& 0xFF] := by
  refine ⟨by decide, by decide, by decide, by decide⟩

/-- **C6, counterexample.**  Packing does not succeed for every payload
length in the stated range: at exactly 256 bytes the marker-2 branch is
selected (`len(payload) <= 256`) but `bytes([2, 256])` raises
`ValueError`, because 256 does not fit in the one-byte length field. -/
theorem C6_counterexample :
    VescUart._pack_payload (List.replicate 256 0) = none :=
  VescUart.pack_at_256 (List.replicate 256 0) (by simp)

/-- **C6, amended.**  `_pack_payload` produces marker 2 followed by a
1-byte length for payloads of at most 255 bytes, then the payload, the
CRC-16/CCITT of the payload alone as two big-endian bytes, and the end
marker 3.  At exactly 256 bytes the short branch is still selected and
pack fails with a `ValueError` instead of succeeding.  From 257 to 65535
bytes it produces marker 3 with a 2-byte big-endian length and the same
trailer. -/
theorem C6_amended (payload : List Nat) :
    (payload.length ≤ 255 → VescUart._pack_payload payload =
      some ([2, payload.length] ++ payload ++
        [VescUart._crc16 payload >>> 8, VescUart._crc16 payload &&& 0xFF, 3])) ∧
    (payload.length = 256 → VescUart._pack_payload payload = none) ∧
    (257 ≤ payload.length → payload.length ≤ 65535 →
      VescUart._pack_payload payload =
        some ([3, payload.length >>> 8, payload.length &&& 0xFF] ++ payload ++
          [VescUart._crc16 payload >>> 8, VescUart._crc16 payload &&& 0xFF, 3])) :=
  ⟨VescUart.pack_short payload, VescUart.pack_at_256 payload,
    VescUart.pack_long payload⟩

/-- **C6, witness.** -/
theorem C6_witness :
    VescUart._pack_payload [4] = some [2, 1, 4, 0x40, 0x84, 3] := by
  have h := (C6_amended [4]).1 (by decide)
  rw [h]
  rfl

/-- **C7, confirmed.**  `_receive_uart_message` returns a payload only for
a stream prefix that is a well-formed marker-2 frame whose embedded CRC
equals the recomputed CRC-16/CCITT of the payload slice; and on any stream
beginning with an otherwise well-formed short frame whose embedded CRC
word differs from the recomputed CRC, it returns `crcFail` — never a
payload. -/
theorem C7_receive_rejects_bad_crc :
    (∀ stream p, VescUart._receive_uart_message stream = .ok p →
      VescUart.UartFrameAccepted stream p) ∧
    (∀ (payload : List Nat) (hi lo : Nat) (rest : List Nat),
      (hi <<< 8) ||| lo ≠ VescUart._crc16 payload →
      VescUart._receive_uart_message
        ([2, payload.length] ++ payload ++ [hi, lo, 3] ++ rest) = .crcFail) := by
  refine ⟨VescUart.receive_ok_accepted, fun payload hi lo rest hne => ?_⟩
  rw [VescUart.receive_frame payload hi lo rest, if_neg (fun hc => hne hc.symm)]

/-- **C7, witness.** -/
theorem C7_witness :
    (0 <<< 8) ||| 0 ≠ VescUart._crc16 [4] ∧
    VescUart._receive_uart_message [2, 1, 4, 0, 0, 3] = .crcFail := by
  refine ⟨by decide, ?_⟩
  exact C7_receive_rejects_bad_crc.2 [4] 0 0 [] (by decide)

/-- **C8, confirmed.**  An accepted CAN STATUS frame with at least 8 data
bytes decodes bytes 0-3 as an unsigned 32-bit big-endian ERPM (scale 1)
and bytes 4-5 as a signed 16-bit big-endian current scaled by 1/10; a
STATUS frame with fewer than 8 data bytes is dropped without producing a
decoded value.  ERPM bytes `00 00 03 E8` with current bytes `00 64` decode
to RPM 1000 and current 10 A. -/
theorem C8_can_status_decode :
    (∀ (data : List Nat) (rem : Bool),
      (8 ≤ data.length →
        read_can_frame_step ⟨CAN_ID_STATUS, true, rem, GS_USB_NONE_ECHO_ID, data⟩ =
          some (.status (be32 data 0) ((toInt16 (be16 data 4) : ℚ) / 10))) ∧
      (data.length < 8 →
        read_can_frame_step ⟨CAN_ID_STATUS, true, rem, GS_USB_NONE_ECHO_ID, data⟩ =
          none)) ∧
    read_can_frame_step ⟨0x901, true, false, 0xFFFFFFFF,
        [0x00, 0x00, 0x03, 0xE8, 0x00, 0x64, 0x00, 0x00]⟩ =
      some (.status 1000 10) := by
  have hacc : (CAN_ID_STATUS &&& CAN_ERR_FLAG) = 0 := by decide
  have hgen : ∀ (data : List Nat) (rem : Bool), 8 ≤ data.length →
      read_can_frame_step ⟨CAN_ID_STATUS, true, rem, GS_USB_NONE_ECHO_ID, data⟩ =
        some (.status (be32 data 0) ((toInt16 (be16 data 4) : ℚ) / 10)) := by
    intro data rem h8
    simp [read_can_frame_step, hacc, h8]
  refine ⟨fun data rem => ⟨hgen data rem, fun h8 => ?_⟩, ?_⟩
  · have hle : ¬ 8 ≤ data.length := by omega
    simp [read_can_frame_step, hacc, hle]
  · have h := hgen [0x00, 0x00, 0x03, 0xE8, 0x00, 0x64, 0x00, 0x00] false (by decide)
    rw [show be32 [0x00, 0x00, 0x03, 0xE8, 0x00, 0x64, 0x00, 0x00] 0 = 1000 from by decide,
      show ((toInt16 (be16 [0x00, 0x00, 0x03, 0xE8, 0x00, 0x64, 0x00, 0x00] 4) : ℚ) / 10)
          = 10 from by norm_num [toInt16, be16]] at h
    exact h

/-- **C8, witness.** -/
theorem C8_witness :
    read_can_frame_step ⟨0x901, true, true, 0xFFFFFFFF,
        [1, 2, 3, 4, 0xFF, 0x38, 0, 0]⟩ =
      some (.status (be32 [1, 2, 3, 4, 0xFF, 0x38, 0, 0] 0)
        ((toInt16 (be16 [1, 2, 3, 4, 0xFF, 0x38, 0, 0] 4) : ℚ) / 10)) ∧
    read_can_frame_step ⟨0x901, true, false, 0xFFFFFFFF, [1, 2, 3]⟩ = none :=
  ⟨(C8_can_status_decode.1 [1, 2, 3, 4, 0xFF, 0x38, 0, 0] true).1 (by decide),
   (C8_can_status_decode.1 [1, 2, 3] false).2 (by decide)⟩

/-- **C9, counterexample.**  A successfully decoded negative torque is not
clamped to zero: the raw signed reading `-100` (torque -1.00 Nm) is
published as `-0.95` Nm, which is not zero. -/
theorem C9_counterexample :
    torque_policy (-100) = some (-(19 : ℚ) / 20) ∧
    torque_policy (-100) ≠ some 0 := by
  constructor
  · norm_num [torque_policy]
  · norm_num [torque_policy]

/-- **C9, amended.**  The validity policy of `update_readings` maps a
decoded torque reading as follows: above 150 Nm it is suppressed entirely
(not published for that tick); a negative value has 0.05 Nm added to it
and is then published (it is not clamped to zero); a value between 0 and
150 Nm is published unchanged. -/
theorem C9_amended (v : Int) :
    (150 < (v : ℚ) / 100 → torque_policy v = none) ∧
    ((v : ℚ) / 100 ≤ 150 → (v : ℚ) / 100 < 0 →
      torque_policy v = some ((v : ℚ) / 100 + 0.05)) ∧
    ((v : ℚ) / 100 ≤ 150 → 0 ≤ (v : ℚ) / 100 →
      torque_policy v = some ((v : ℚ) / 100)) := by
  refine ⟨fun h => ?_, fun h1 h2 => ?_, fun h1 h2 => ?_⟩ <;>
    simp only [torque_policy]
  · rw [if_pos h]
  · rw [if_neg (not_lt.mpr h1), if_pos h2]
  · rw [if_neg (not_lt.mpr h1), if_neg (not_lt.mpr h2)]

/-- **C9, witness.** -/
theorem C9_witness :
    torque_policy 20000 = none ∧
    torque_policy (-100) = some (-(100 : ℚ) / 100 + 0.05) ∧
    torque_policy 500 = some ((500 : ℚ) / 100) := by
  refine ⟨(C9_amended 20000).1 (by norm_num), ?_, ?_⟩
  · have h := (C9_amended (-100)).2.1 (by norm_num) (by norm_num)
    rw [h]
    norm_num
  · exact (C9_amended 500).2.2 (by norm_num) (by norm_num)

/-- **C10, confirmed.**  `get_values` returns `True` exactly when the
receive step returned a CRC-validated frame whose payload is strictly
longer than 55 bytes (every `_receive_uart_message` success comes from a
CRC-validated frame); on any shorter, CRC-failed, or timed-out reception
it returns `False`.  The cached `VescData` changes only when additionally
the first payload byte is the `COMM_GET_VALUES` id (4); in every other
case the cache is left exactly as it was. -/
theorem C10_get_values_contract (stream : List Nat) (d : VescUart.VescData) :
    ((VescUart.get_values stream d).1 = true ↔
      ∃ p, VescUart._receive_uart_message stream = .ok p ∧ 55 < p.length) ∧
    ((VescUart.get_values stream d).1 = true →
      ∃ p, VescUart._receive_uart_message stream = .ok p ∧ 55 < p.length ∧
        VescUart.UartFrameAccepted stream p) ∧
    ((VescUart.get_values stream d).2 ≠ d →
      ∃ p, VescUart._receive_uart_message stream = .ok p ∧ 55 < p.length ∧
        p.headI = VescUart.COMM_GET_VALUES) := by
  simp only [VescUart.get_values]
  cases hrec : VescUart._receive_uart_message stream with
  | ok msg =>
    dsimp only
    by_cases hlen : 55 < msg.length
    · rw [if_pos hlen]
      refine ⟨⟨fun _ => ⟨msg, rfl, hlen⟩, fun _ => rfl⟩,
        fun _ => ⟨msg, rfl, hlen, VescUart.receive_ok_accepted stream msg hrec⟩,
        fun hne => ?_⟩
      by_cases hid : msg.headI = VescUart.COMM_GET_VALUES
      · exact ⟨msg, rfl, hlen, hid⟩
      · exfalso
        apply hne
        show VescUart._process_read_packet msg d = d
        simp only [VescUart._process_read_packet]
        rw [if_neg hid]
    · rw [if_neg hlen]
      refine ⟨⟨fun hf => absurd hf (by simp), fun hex => ?_⟩,
        fun hf => absurd hf (by simp), fun hne => absurd rfl hne⟩
      obtain ⟨p, hp, hl⟩ := hex
      obtain rfl : msg = p := by simpa using hp
      exact absurd hl hlen
  | crcFail =>
    refine ⟨⟨fun hf => absurd hf (by simp), fun hex => ?_⟩,
      fun hf => absurd hf (by simp), fun hne => absurd rfl hne⟩
    obtain ⟨p, hp, -⟩ := hex
    exact VescUart.RecvResult.noConfusion hp
  | timeout =>
    refine ⟨⟨fun hf => absurd hf (by simp), fun hex => ?_⟩,
      fun hf => absurd hf (by simp), fun hne => absurd rfl hne⟩
    obtain ⟨p, hp, -⟩ := hex
    exact VescUart.RecvResult.noConfusion hp

/-- **C10, witness.**  On the stream `[2, 1, 9, 0, 0, 3]` (a complete
frame with a wrong CRC) the receive step fails, so `get_values` returns
`False` and leaves the cached data untouched. -/
theorem C10_witness :
    VescUart.get_values [2, 1, 9, 0, 0, 3] VescUart.VescData.init =
      (false, VescUart.VescData.init) := by
  have h := C10_get_values_contract [2, 1, 9, 0, 0, 3] VescUart.VescData.init
  have hrec : VescUart._receive_uart_message [2, 1, 9, 0, 0, 3] = .crcFail := by decide
  have hfst : (VescUart.get_values [2, 1, 9, 0, 0, 3] VescUart.VescData.init).1 = false := by
    cases hb : (VescUart.get_values [2, 1, 9, 0, 0, 3] VescUart.VescData.init).1 with
    | false => rfl
    | true =>
        obtain ⟨p, hp, -⟩ := h.1.mp hb
        rw [hrec] at hp
        exact VescUart.RecvResult.noConfusion hp
  have hsnd : (VescUart.get_values [2, 1, 9, 0, 0, 3] VescUart.VescData.init).2 =
      VescUart.VescData.init := by
    by_contra hne
    obtain ⟨p, hp, -⟩ := h.2.2 hne
    rw [hrec] at hp
    exact VescUart.RecvResult.noConfusion hp
  exact Prod.ext hfst hsnd
